import Mathlib

/-!
Verification of the PhotoStream backend (FastAPI + MongoDB + Redis) against
its natural-language specification.  The relevant services
(`app/services/rating_service.py`, `app/services/like_service.py`,
`app/services/photo_service.py`, `app/services/cache_service.py`) are
shallowly embedded: the Mongo collections become Lists of records, the
document-store primitives (`find_one`, `insert_one`, `update_one`,
`delete_one`, `delete_many`, aggregation sort/skip/limit) become explicit
list manipulations with first-match semantics, Python exceptions become
`Except`, floats become rationals, and the Redis cache is modelled by the
set of currently live keys.
-/

namespace PhotoStream

/-- Error taxonomy of the services: each constructor corresponds to one of the
HTTPException statuses raised in the Python source (404, 403, 503) plus the
Python `KeyError` that the rating-distribution loop can raise. -/
inductive Err where
  | notFound
  | forbidden
  | unavailable
  | keyError
deriving DecidableEq, Repr

/-- One document of the `ratings` collection, as written by
`RatingService.create_or_update_rating`:
`{photo_id, user_id, rating, created_at}` plus Mongo's `_id`. -/
structure RatingRec where
  id : Nat
  photo_id : Nat
  user_id : Nat
  rating : Nat
  created_at : Nat
deriving DecidableEq, Repr

/-- One document of the `likes` collection, as written by
`LikeService.toggle_like`: `{photo_id, user_id, liked, created_at}` plus `_id`. -/
structure LikeRec where
  id : Nat
  photo_id : Nat
  user_id : Nat
  liked : Bool
  created_at : Nat
deriving DecidableEq, Repr

/-- One document of the `comments` collection (fields written by
`CommentService.create_comment`). -/
structure CommentRec where
  id : Nat
  photo_id : Nat
  user_id : Nat
  content : String
  created_at : Nat
deriving DecidableEq, Repr

/-- Optional media metadata stored inside a photo document. -/
structure PhotoMeta where
  width : Option Nat
  height : Option Nat
  format : Option String
  size : Option Nat
deriving DecidableEq, Repr

/-- One document of the `photos` collection, with the fields written by
`PhotoService.create_photo` and maintained by the rating/like aggregators. -/
structure PhotoRec where
  id : Nat
  creator_id : Nat
  title : String
  caption : Option String
  location : Option String
  people_present : List String
  cloudinary_public_id : Nat
  cloudinary_url : String
  thumbnail_url : String
  average_rating : ℚ
  total_ratings : Nat
  total_likes : Nat
  meta : PhotoMeta
  upload_date : Nat
deriving DecidableEq, Repr

/-- One document of the `users` collection (only the fields the embedded
operations read: `_id` and `username` for the `$lookup` enrichment). -/
structure UserRec where
  id : Nat
  username : String
deriving DecidableEq, Repr

/-- The whole mutable state: the four Mongo collections, the users
collection, the set of live Redis keys, the set of Cloudinary assets, the
`_id` generator and the current clock value (for `datetime.utcnow()`). -/
structure AppState where
  photos : List PhotoRec
  users : List UserRec
  ratings : List RatingRec
  likes : List LikeRec
  comments : List CommentRec
  cache : List String
  media : List Nat
  nextId : Nat
  now : Nat
deriving DecidableEq, Repr

/-- Mongo `update_one`: rewrite the first element satisfying the filter,
leave everything else in place. -/
def updateFirst (l : List α) (q : α → Bool) (f : α → α) : List α :=
  match l with
  | [] => []
  | x :: xs => if q x then f x :: xs else x :: updateFirst xs q f

/-- Mongo `delete_one`: remove the first element satisfying the filter. -/
def removeFirst (l : List α) (q : α → Bool) : List α :=
  match l with
  | [] => []
  | x :: xs => if q x then xs else x :: removeFirst xs q

/-- Python `round` is round-half-to-even (banker's rounding); this is its
integer core on rationals. -/
def roundHalfEven (q : ℚ) : ℤ :=
  let f := ⌊q⌋
  if q - f < 1/2 then f
  else if q - f > 1/2 then f + 1
  else if f % 2 = 0 then f else f + 1

/-- Python `round(x, 2)`: round to two decimal places, half to even. -/
def round2 (q : ℚ) : ℚ := (roundHalfEven (q * 100) : ℚ) / 100

/-- All ratings currently stored for a photo
(`db.ratings.find({"photo_id": photo_id})`). -/
def ratingsFor (s : AppState) (pid : Nat) : List RatingRec :=
  s.ratings.filter (fun r => r.photo_id == pid)

/-- Sum of the rating values of a list of rating documents, as a rational
(`sum(r["rating"] for r in ratings)`). -/
def ratingSum (l : List RatingRec) : ℚ :=
  (l.map (fun r => (r.rating : ℚ))).sum

/-- The average the Python code stores: `0.0` when there are no ratings,
otherwise `round(total_score / total_ratings, 2)`. -/
def meanRounded (l : List RatingRec) : ℚ :=
  if l.length = 0 then 0 else round2 (ratingSum l / l.length)

/-- The `$set` document of `_update_photo_rating`: write the recomputed
`average_rating` and `total_ratings` onto a photo document. -/
def setAggregates (rts : List RatingRec) (p : PhotoRec) : PhotoRec :=
  { p with average_rating := meanRounded rts, total_ratings := rts.length }

/-- `RatingService._update_photo_rating`: recount all ratings of the photo
and write `average_rating` / `total_ratings` onto the photo document. -/
def updatePhotoRating (pid : Nat) (s : AppState) : AppState :=
  { s with photos := updateFirst s.photos (fun p => p.id == pid) (setAggregates (ratingsFor s pid)) }

/-- `RatingService.create_or_update_rating`: 404 when the photo is absent;
otherwise update the existing rating document of the (photo, user) pair in
place, or insert a fresh one; then recompute the photo's aggregate and
return the stored rating document.  The returned pair is
(result, final state). -/
def create_or_update_rating (pid uid rv : Nat) (s : AppState) :
    Except Err RatingRec × AppState :=
  match s.photos.find? (fun p => p.id == pid) with
  | none => (.error .notFound, s)
  | some _ =>
    match s.ratings.find? (fun r => r.photo_id == pid && r.user_id == uid) with
    | some ex =>
      let setVal : RatingRec → RatingRec := fun r =>
        { r with rating := rv, created_at := s.now }
      let s1 := { s with ratings := updateFirst s.ratings (fun r => r.id == ex.id) setVal }
      let s2 := updatePhotoRating pid s1
      match s2.ratings.find? (fun r => r.id == ex.id) with
      | some r => (.ok r, s2)
      | none => (.error .notFound, s2)
    | none =>
      let newR : RatingRec :=
        { id := s.nextId, photo_id := pid, user_id := uid,
          rating := rv, created_at := s.now }
      let s1 := { s with ratings := s.ratings ++ [newR], nextId := s.nextId + 1 }
      let s2 := updatePhotoRating pid s1
      match s2.ratings.find? (fun r => r.id == newR.id) with
      | some r => (.ok r, s2)
      | none => (.error .notFound, s2)

/-- Result record returned by `LikeService.toggle_like` (`LikeResponse`). -/
structure LikeResult where
  id : Nat
  photo_id : Nat
  user_id : Nat
  liked : Bool
deriving DecidableEq, Repr

/-- All likes currently stored for a photo. -/
def likesFor (s : AppState) (pid : Nat) : List LikeRec :=
  s.likes.filter (fun l => l.photo_id == pid)

/-- `LikeService._update_photo_likes`: recount the photo's likes
(`count_documents({"photo_id": photo_id})`) and write `total_likes`. -/
def updatePhotoLikes (pid : Nat) (s : AppState) : AppState :=
  let total := (likesFor s pid).length
  let setTot : PhotoRec → PhotoRec := fun p => { p with total_likes := total }
  { s with photos := updateFirst s.photos (fun p => p.id == pid) setTot }

/-- Cache point key of a photo (`f"photo:{photo_id}"`). -/
def photoKey (pid : Nat) : String := "photo:" ++ toString pid

/-- Cache key of a photo's like stats (`f"likes:photo:{photo_id}"`). -/
def likesKey (pid : Nat) : String := "likes:photo:" ++ toString pid

/-- Cache key pattern of a photo's rating stats
(`f"ratings:photo:{photo_id}"`). -/
def ratingsKey (pid : Nat) : String := "ratings:photo:" ++ toString pid

/-- Cache key of a creator's photo list (`f"creator_photos:{creator_id}"`). -/
def creatorKey (cid : Nat) : String := "creator_photos:" ++ toString cid

/-- The cache invalidation performed by `toggle_like`:
`delete(likes:photo:{id})`, `delete(photo:{id})`, `delete_pattern(photos:*)`. -/
def invalidateLikeKeys (pid : Nat) (cache : List String) : List String :=
  cache.filter (fun k =>
    !(k == likesKey pid || k == photoKey pid || k.startsWith "photos:"))

/-- `LikeService.toggle_like`: 404 when the photo is absent; otherwise delete
the pair's like document if one exists, else insert a fresh one; then
recount `total_likes` and invalidate the like-related cache keys. -/
def toggle_like (pid uid : Nat) (s : AppState) :
    Except Err LikeResult × AppState :=
  match s.photos.find? (fun p => p.id == pid) with
  | none => (.error .notFound, s)
  | some _ =>
    match s.likes.find? (fun l => l.photo_id == pid && l.user_id == uid) with
    | some ex =>
      let s1 := { s with likes := removeFirst s.likes (fun l => l.id == ex.id) }
      let s2 := updatePhotoLikes pid s1
      let s3 := { s2 with cache := invalidateLikeKeys pid s2.cache }
      (.ok { id := ex.id, photo_id := pid, user_id := uid, liked := false }, s3)
    | none =>
      let newL : LikeRec :=
        { id := s.nextId, photo_id := pid, user_id := uid,
          liked := true, created_at := s.now }
      let s1 := { s with likes := s.likes ++ [newL], nextId := s.nextId + 1 }
      let s2 := updatePhotoLikes pid s1
      let s3 := { s2 with cache := invalidateLikeKeys pid s2.cache }
      (.ok { id := newL.id, photo_id := pid, user_id := uid, liked := true }, s3)

/-- Fields of a `PhotoUpdate` request body; `none` means the field was not
provided (pydantic `exclude_unset`). -/
structure PhotoUpdate where
  title : Option String
  caption : Option String
  location : Option String
  people_present : Option (List String)
deriving DecidableEq, Repr

/-- Apply a `$set` of the provided `PhotoUpdate` fields to a photo document. -/
def applyUpdate (u : PhotoUpdate) (p : PhotoRec) : PhotoRec :=
  { p with
    title := u.title.getD p.title,
    caption := match u.caption with | some c => some c | none => p.caption,
    location := match u.location with | some l => some l | none => p.location,
    people_present := u.people_present.getD p.people_present }

/-- The empty update (`photo_data.dict(exclude_unset=True)` is falsy). -/
def PhotoUpdate.isEmpty (u : PhotoUpdate) : Bool :=
  u.title.isNone && u.caption.isNone && u.location.isNone && u.people_present.isNone

/-- An enriched photo as returned to clients: the `$lookup`/`$unwind` join of
a photo with its creator's username, defaulting to "Unknown User". -/
structure PhotoOut where
  photo : PhotoRec
  username : String
deriving DecidableEq, Repr

/-- The `$lookup`+`$unwind`+`$addFields` enrichment of one photo document
with the uploader's username ("Unknown User" if the user is gone). -/
def enrich (users : List UserRec) (p : PhotoRec) : PhotoOut :=
  match users.find? (fun u => u.id == p.creator_id) with
  | some u => { photo := p, username := u.username }
  | none => { photo := p, username := "Unknown User" }

/-- The cache invalidation shared by `update_photo` and part of
`delete_photo`: `delete(photo:{id})`, `delete_pattern(photos:*)`,
`delete_pattern(creator_photos:{creator_id})`. -/
def invalidatePhotoKeys (pid cid : Nat) (cache : List String) : List String :=
  cache.filter (fun k =>
    !(k == photoKey pid || k.startsWith "photos:" || k == creatorKey cid))

/-- `PhotoService.update_photo`: 404 when the photo is absent, 403 when the
acting user is not the photo's creator (checked before any write);
otherwise `$set` the provided fields, re-read the enriched photo, and
invalidate the photo's cache keys. -/
def update_photo (pid : Nat) (upd : PhotoUpdate) (uid : Nat) (s : AppState) :
    Except Err PhotoOut × AppState :=
  match s.photos.find? (fun p => p.id == pid) with
  | none => (.error .notFound, s)
  | some p =>
    if p.creator_id != uid then (.error .forbidden, s)
    else
      let s1 :=
        if upd.isEmpty then s
        else { s with photos := updateFirst s.photos (fun q => q.id == pid) (applyUpdate upd) }
      match s1.photos.find? (fun q => q.id == pid) with
      | none => (.error .notFound, s1)
      | some p' =>
        let s2 := { s1 with cache := invalidatePhotoKeys pid uid s1.cache }
        (.ok (enrich s1.users p'), s2)

/-- `PhotoService.delete_photo`: 404 when absent, 403 when not the owner
(both before any write); otherwise delete the Cloudinary asset, the photo
document, its comments and its ratings, and invalidate the photo's cache
keys plus `ratings:photo:{id}`.  Note the `likes` collection is untouched. -/
def delete_photo (pid uid : Nat) (s : AppState) : Except Err Bool × AppState :=
  match s.photos.find? (fun p => p.id == pid) with
  | none => (.error .notFound, s)
  | some p =>
    if p.creator_id != uid then (.error .forbidden, s)
    else
      let s1 := { s with media := removeFirst s.media (fun m => m == p.cloudinary_public_id) }
      let s2 := { s1 with photos := removeFirst s1.photos (fun q => q.id == pid) }
      let s3 := { s2 with
        comments := s2.comments.filter (fun c => !(c.photo_id == pid)),
        ratings := s2.ratings.filter (fun r => !(r.photo_id == pid)) }
      let cache' := (invalidatePhotoKeys pid uid s3.cache).filter
        (fun k => !(k == ratingsKey pid))
      (.ok true, { s3 with cache := cache' })

/-- Char-list version of "nee is a leading segment of hay". -/
def charsPre : List Char → List Char → Bool
  | [], _ => true
  | _ :: _, [] => false
  | c :: cs, d :: ds => c == d && charsPre cs ds

/-- Char-list version of "nee occurs contiguously inside hay". -/
def charsSub (nee hay : List Char) : Bool :=
  match hay with
  | [] => nee.isEmpty
  | _ :: t => charsPre nee hay || charsSub nee t

/-- Case-insensitive substring containment, the model of the Mongo
`{"$regex": needle, "$options": "i"}` filters (the spec treats the search
term as plain text, not regex metacharacters). -/
def containsCI (hay nee : String) : Bool :=
  charsSub nee.toLower.data hay.toLower.data

/-- The `match_query` of `PhotoService.get_photos`: optional case-insensitive
search over title/caption, optional case-insensitive location filter. -/
def matchesQuery (search location : Option String) (p : PhotoRec) : Bool :=
  (match search with
   | none => true
   | some srch =>
     containsCI p.title srch ||
       (match p.caption with
        | some c => containsCI c srch
        | none => false)) &&
  (match location with
   | none => true
   | some loc =>
     match p.location with
     | some pl => containsCI pl loc
     | none => false)

/-- Stable insertion of a photo into a list sorted by descending
`upload_date`: the new element goes after every earlier element with an
upload date at least as large (`$sort: {"upload_date": -1}` has no
secondary key, so ties keep their store order). -/
def insDesc (x : PhotoRec) : List PhotoRec → List PhotoRec
  | [] => [x]
  | y :: ys =>
    if x.upload_date ≥ y.upload_date then x :: y :: ys else y :: insDesc x ys

/-- Stable sort by descending `upload_date` (the aggregation `$sort` stage). -/
def sortByDateDesc : List PhotoRec → List PhotoRec
  | [] => []
  | x :: xs => insDesc x (sortByDateDesc xs)

/-- The listing response (`PhotoListResponse`). -/
structure PhotoListResp where
  photos : List PhotoOut
  total : Nat
  page : Nat
  page_size : Nat
  total_pages : Nat
deriving DecidableEq, Repr

/-- `PhotoService.get_photos` (the cache-miss compute path): count the
matching photos — via `estimated_document_count()` on an unfiltered first
page, exactly otherwise — set `total_pages = ceil(total/page_size)` with a
floor of one page, then `$match`/`$sort`/`$skip`/`$limit` and join each
photo with its uploader's username. -/
def get_photos (page page_size : Nat) (search location : Option String)
    (s : AppState) : PhotoListResp :=
  let matched := s.photos.filter (matchesQuery search location)
  let total :=
    if page == 1 && search.isNone && location.isNone then s.photos.length
    else matched.length
  let skip := (page - 1) * page_size
  let total_pages := if total > 0 then (total + page_size - 1) / page_size else 1
  let pageItems := ((sortByDateDesc matched).drop skip).take page_size
  { photos := pageItems.map (enrich s.users),
    total := total, page := page, page_size := page_size,
    total_pages := total_pages }

/-- Rating statistics record (`PhotoRatingStats` schema): average, count, and
the `{1: n1, ..., 5: n5}` distribution dict modelled as an association list. -/
structure RatingStats where
  average_rating : ℚ
  total_ratings : Nat
  rating_distribution : List (Nat × Nat)
deriving DecidableEq, Repr

/-- The initial distribution dict `{1: 0, 2: 0, 3: 0, 4: 0, 5: 0}`. -/
def zeroDist : List (Nat × Nat) := [(1, 0), (2, 0), (3, 0), (4, 0), (5, 0)]

/-- Python `dist[k] += 1` on a dict: bump the entry of `k`, or fail with a
`KeyError` (`none`) when `k` is not a key. -/
def distInc (d : List (Nat × Nat)) (k : Nat) : Option (List (Nat × Nat)) :=
  match d with
  | [] => none
  | (k0, v) :: rest =>
    if k0 == k then some ((k0, v + 1) :: rest)
    else (distInc rest k).map (fun r => (k0, v) :: r)

/-- The distribution loop of `get_photo_rating_stats`:
`for rating in ratings: rating_distribution[rating["rating"]] += 1`. -/
def buildDist : List RatingRec → List (Nat × Nat) → Option (List (Nat × Nat))
  | [], d => some d
  | r :: rs, d => (distInc d r.rating).bind (buildDist rs)

/-- Dict lookup on the association-list model of the distribution. -/
def distGet (d : List (Nat × Nat)) (k : Nat) : Option Nat :=
  match d with
  | [] => none
  | (k0, v) :: rest => if k0 == k then some v else distGet rest k

/-- `RatingService.get_photo_rating_stats`: 404 when the photo is absent; an
all-zero answer when the photo has no ratings; otherwise the rounded mean,
the count, and the 1-to-5 value distribution (a rating value outside the
dict's keys would raise a `KeyError`). -/
def get_photo_rating_stats (pid : Nat) (s : AppState) : Except Err RatingStats :=
  match s.photos.find? (fun p => p.id == pid) with
  | none => .error .notFound
  | some _ =>
    let rts := ratingsFor s pid
    if rts.length = 0 then
      .ok { average_rating := 0, total_ratings := 0, rating_distribution := zeroDist }
    else
      match buildDist rts zeroDist with
      | none => .error .keyError
      | some d =>
        .ok { average_rating := round2 (ratingSum rts / rts.length),
              total_ratings := rts.length, rating_distribution := d }

/-- Outcome of one call into the Redis client: either a Python return value
or a raised exception. -/
inductive CallResult (α : Type) where
  | ok : α → CallResult α
  | exc : CallResult α
deriving DecidableEq, Repr

/-- `CacheService.get`: `None` when caching is disabled or the client is
absent; inside the `try`, a raised exception or an empty reply yields
`None`, otherwise the decoded value; the surrounding `except` means no
error ever escapes (`Except.error` is unreachable). -/
def cacheGet (enabled hasClient : Bool) (fetch : CallResult (Option String))
    (decode : String → CallResult String) : Except Err (Option String) :=
  if !enabled || !hasClient then .ok none
  else
    match fetch with
    | .exc => .ok none
    | .ok none => .ok none
    | .ok (some raw) =>
      if raw = "" then .ok none
      else
        match decode raw with
        | .exc => .ok none
        | .ok v => .ok (some v)

/-- The TTL actually used by `CacheService.set`: the explicit argument or
the configured default (`ttl or settings.cache_ttl`). -/
def effectiveTtl (ttlArg : Option Nat) (defaultTtl : Nat) : Nat :=
  ttlArg.getD defaultTtl

/-- `CacheService.set`: `False` when disabled or the client is absent or the
`setex` call raises; `True` otherwise; never an error. -/
def cacheSet (enabled hasClient : Bool) (write : CallResult Unit) :
    Except Err Bool :=
  if !enabled || !hasClient then .ok false
  else
    match write with
    | .exc => .ok false
    | .ok _ => .ok true

/-- `CacheService.delete`: same shape as `set`. -/
def cacheDelete (enabled hasClient : Bool) (call : CallResult Unit) :
    Except Err Bool :=
  if !enabled || !hasClient then .ok false
  else
    match call with
    | .exc => .ok false
    | .ok _ => .ok true

/-- `CacheService.delete_pattern`: list the keys matching the pattern, then
delete them if any; an exception in either call is swallowed into `False`. -/
def cacheDeleteByPrefix (enabled hasClient : Bool)
    (keysCall : CallResult (List String)) (delCall : CallResult Unit) :
    Except Err Bool :=
  if !enabled || !hasClient then .ok false
  else
    match keysCall with
    | .exc => .ok false
    | .ok keys =>
      if keys.isEmpty then .ok true
      else
        match delCall with
        | .exc => .ok false
        | .ok _ => .ok true

/-! ### Generic lemmas about the store primitives -/

theorem find?_updateFirst {α} (l : List α) (q : α → Bool) (f : α → α)
    (hf : ∀ a, q a = true → q (f a) = true) :
    (updateFirst l q f).find? q = (l.find? q).map f := by
  induction l with
  | nil => simp [updateFirst]
  | cons x xs ih =>
    cases hx : q x with
    | true =>
      have hfx := hf x hx
      simp [updateFirst, hx, List.find?_cons_of_pos _ hx, List.find?_cons_of_pos _ hfx]
    | false =>
      have hx' : ¬ q x = true := by simp [hx]
      simp only [updateFirst, hx, Bool.false_eq_true, if_false]
      rw [List.find?_cons_of_neg _ hx', List.find?_cons_of_neg _ hx', ih]

theorem mem_updateFirst {α} {l : List α} {q : α → Bool} {f : α → α} {a : α}
    (h : a ∈ updateFirst l q f) : a ∈ l ∨ ∃ b ∈ l, a = f b := by
  induction l with
  | nil => simp [updateFirst] at h
  | cons x xs ih =>
    cases hx : q x with
    | true =>
      rw [updateFirst, if_pos hx] at h
      rcases List.mem_cons.mp h with rfl | h'
      · exact Or.inr ⟨x, List.mem_cons_self x xs, rfl⟩
      · exact Or.inl (List.mem_cons_of_mem _ h')
    | false =>
      rw [updateFirst, if_neg (by simp [hx])] at h
      rcases List.mem_cons.mp h with rfl | h'
      · exact Or.inl (List.mem_cons_self a xs)
      · rcases ih h' with h'' | ⟨b, hb, hab⟩
        · exact Or.inl (List.mem_cons_of_mem _ h'')
        · exact Or.inr ⟨b, List.mem_cons_of_mem _ hb, hab⟩

theorem countP_updateFirst {α} (l : List α) (q p : α → Bool) (f : α → α)
    (hf : ∀ a, p (f a) = p a) :
    (updateFirst l q f).countP p = l.countP p := by
  induction l with
  | nil => rfl
  | cons x xs ih =>
    cases hx : q x with
    | true => simp [updateFirst, hx, List.countP_cons, hf]
    | false => simp [updateFirst, hx, List.countP_cons, ih]

theorem pairwise_updateFirst {α} {R : α → α → Prop} {l : List α}
    (q : α → Bool) (f : α → α)
    (hl : ∀ a b, R a b → R (f a) b) (hr : ∀ a b, R a b → R a (f b))
    (h : l.Pairwise R) : (updateFirst l q f).Pairwise R := by
  induction l with
  | nil => exact h
  | cons x xs ih =>
    rcases List.pairwise_cons.mp h with ⟨hx, hxs⟩
    cases hq : q x with
    | true =>
      rw [updateFirst, if_pos hq]
      exact List.pairwise_cons.mpr ⟨fun b hb => hl x b (hx b hb), hxs⟩
    | false =>
      rw [updateFirst, if_neg (by simp [hq])]
      refine List.pairwise_cons.mpr ⟨fun b hb => ?_, ih hxs⟩
      rcases mem_updateFirst hb with hb' | ⟨c, hc, rfl⟩
      · exact hx b hb'
      · exact hr x c (hx c hc)

/-- The `find?` of a key-distinct list at the key of one of its members
returns that member. -/
theorem find?_of_mem_distinct {α} {key : α → Nat} {l : List α} {a : α}
    (hd : l.Pairwise (fun x y => key x ≠ key y)) (ha : a ∈ l) :
    l.find? (fun x => key x == key a) = some a := by
  induction l with
  | nil => cases ha
  | cons x xs ih =>
    rcases List.pairwise_cons.mp hd with ⟨hx, hxs⟩
    rcases List.mem_cons.mp ha with rfl | ha'
    · exact List.find?_cons_of_pos _ (by simp)
    · have hne : key x ≠ key a := hx a ha'
      rw [List.find?_cons_of_neg _ (by simpa using hne)]
      exact ih hxs ha'

theorem removeFirst_append_singleton {α} (l : List α) (q : α → Bool) (x : α)
    (hx : q x = true) (hl : ∀ a ∈ l, q a = false) :
    removeFirst (l ++ [x]) q = l := by
  induction l with
  | nil => simp [removeFirst, hx]
  | cons y ys ih =>
    have hy : q y = false := hl y (List.mem_cons_self y ys)
    rw [List.cons_append, removeFirst, if_neg (by simp [hy]),
      ih (fun a ha => hl a (List.mem_cons_of_mem _ ha))]

/-- Removing the first match from a key-distinct list at a member's key
removes exactly that member. -/
theorem mem_removeFirst_of_distinct {α} {key : α → Nat} {l : List α} {a b : α}
    (hd : l.Pairwise (fun x y => key x ≠ key y)) (ha : a ∈ l)
    (hb : b ∈ removeFirst l (fun x => key x == key a)) : b ∈ l ∧ b ≠ a := by
  induction l with
  | nil => cases ha
  | cons x xs ih =>
    rcases List.pairwise_cons.mp hd with ⟨hx, hxs⟩
    rcases List.mem_cons.mp ha with rfl | ha'
    · rw [removeFirst, if_pos (by simp)] at hb
      refine ⟨List.mem_cons_of_mem _ hb, ?_⟩
      intro hba
      exact hx b hb (by rw [hba])
    · have hne : key x ≠ key a := hx a ha'
      rw [removeFirst, if_neg (by simpa using hne)] at hb
      rcases List.mem_cons.mp hb with rfl | hb'
      · refine ⟨List.mem_cons_self b xs, ?_⟩
        rintro rfl
        exact hne rfl
      · rcases ih hxs ha' hb' with ⟨h1, h2⟩
        exact ⟨List.mem_cons_of_mem _ h1, h2⟩

/-! ### Characterization of the rating write's final state -/

theorem snd_rating_match (o : Option RatingRec) (s2 : AppState) :
    (match o with
     | some r => ((Except.ok r : Except Err RatingRec), s2)
     | none => ((Except.error Err.notFound : Except Err RatingRec), s2)).2 = s2 := by
  cases o <;> rfl

/-- The final state of `create_or_update_rating` on an existing photo:
either the in-place update of the pair's rating followed by the aggregate
recount, or the insertion of a fresh rating followed by the recount. -/
theorem create_or_update_rating_state (pid uid rv : Nat) (s : AppState)
    (p0 : PhotoRec) (hp0 : s.photos.find? (fun p => p.id == pid) = some p0) :
    (create_or_update_rating pid uid rv s).2 =
      match s.ratings.find? (fun r => r.photo_id == pid && r.user_id == uid) with
      | some ex => updatePhotoRating pid
          { s with ratings := updateFirst s.ratings (fun r => r.id == ex.id) (fun r => { r with rating := rv, created_at := s.now }) }
      | none => updatePhotoRating pid
          { s with
            ratings := s.ratings ++
              [{ id := s.nextId, photo_id := pid, user_id := uid,
                 rating := rv, created_at := s.now }],
            nextId := s.nextId + 1 } := by
  cases hex : s.ratings.find? (fun r => r.photo_id == pid && r.user_id == uid) with
  | some ex =>
    simp only [create_or_update_rating, hp0, hex]
    exact snd_rating_match _ _
  | none =>
    simp only [create_or_update_rating, hp0, hex]
    exact snd_rating_match _ _

/-- The aggregate recount writes exactly the recomputed aggregates onto the
photo document it finds. -/
theorem updatePhotoRating_find (pid : Nat) (s1 : AppState) (p0 : PhotoRec)
    (hp0 : s1.photos.find? (fun p => p.id == pid) = some p0) :
    (updatePhotoRating pid s1).photos.find? (fun q => q.id == pid) =
      some (setAggregates (ratingsFor s1 pid) p0) := by
  show (updateFirst s1.photos _ _).find? _ = _
  rw [find?_updateFirst s1.photos (fun p => p.id == pid)
    (setAggregates (ratingsFor s1 pid)) (fun a ha => ha), hp0]
  rfl

theorem updatePhotoRating_spec (pid : Nat) (s1 : AppState) (p0 : PhotoRec)
    (hp0 : s1.photos.find? (fun p => p.id == pid) = some p0) :
    ∃ p, ((updatePhotoRating pid s1).photos.find? (fun q => q.id == pid)) = some p ∧
      p.total_ratings = (ratingsFor (updatePhotoRating pid s1) pid).length ∧
      (ratingsFor (updatePhotoRating pid s1) pid = [] → p.average_rating = 0) ∧
      (ratingsFor (updatePhotoRating pid s1) pid ≠ [] →
        p.average_rating = round2 (ratingSum (ratingsFor (updatePhotoRating pid s1) pid) /
          (ratingsFor (updatePhotoRating pid s1) pid).length)) := by
  have hRF : ratingsFor (updatePhotoRating pid s1) pid = ratingsFor s1 pid := rfl
  refine ⟨setAggregates (ratingsFor s1 pid) p0,
    updatePhotoRating_find pid s1 p0 hp0, ?_, ?_, ?_⟩
  · rw [hRF]; rfl
  · intro hnil
    rw [hRF] at hnil
    show meanRounded (ratingsFor s1 pid) = 0
    rw [hnil]; rfl
  · intro hnil
    rw [hRF] at hnil
    rw [hRF]
    show meanRounded (ratingsFor s1 pid) = _
    rw [meanRounded, if_neg (by simpa [List.length_eq_zero] using hnil)]

/-- C1: after a rating create-or-update on photo `pid`, the stored photo
document's `total_ratings` equals the number of ratings then stored for
`pid`, and `average_rating` equals their arithmetic mean rounded to two
decimals (and would be 0.0 with no ratings). -/
theorem rating_write_keeps_aggregates (s : AppState) (pid uid rv : Nat)
    (hp : (s.photos.find? (fun p => p.id == pid)).isSome = true) :
    ∃ p, ((create_or_update_rating pid uid rv s).2.photos.find? (fun q => q.id == pid)) = some p ∧
      p.total_ratings = (ratingsFor (create_or_update_rating pid uid rv s).2 pid).length ∧
      (ratingsFor (create_or_update_rating pid uid rv s).2 pid = [] → p.average_rating = 0) ∧
      (ratingsFor (create_or_update_rating pid uid rv s).2 pid ≠ [] →
        p.average_rating = round2 (ratingSum (ratingsFor (create_or_update_rating pid uid rv s).2 pid) /
          (ratingsFor (create_or_update_rating pid uid rv s).2 pid).length)) := by
  obtain ⟨p0, hp0⟩ := Option.isSome_iff_exists.mp hp
  have hstate := create_or_update_rating_state pid uid rv s p0 hp0
  cases hex : s.ratings.find? (fun r => r.photo_id == pid && r.user_id == uid) with
  | some ex =>
    rw [hex] at hstate
    rw [hstate]
    exact updatePhotoRating_spec pid _ p0 hp0
  | none =>
    rw [hex] at hstate
    rw [hstate]
    exact updatePhotoRating_spec pid _ p0 hp0

/-- A sample photo for the concrete witnesses. -/
def photoA : PhotoRec :=
  { id := 1, creator_id := 5, title := "Sunset", caption := some "golden hour",
    location := some "Hunza", people_present := [], cloudinary_public_id := 11,
    cloudinary_url := "https://img/a", thumbnail_url := "https://img/a-t",
    average_rating := 0, total_ratings := 0, total_likes := 0,
    meta := { width := none, height := none, format := none, size := none },
    upload_date := 10 }

/-- A sample state with one photo and its creator, for the witnesses. -/
def stateA : AppState :=
  { photos := [photoA], users := [{ id := 5, username := "alice" }],
    ratings := [], likes := [], comments := [], cache := [], media := [11],
    nextId := 100, now := 50 }

/-- Witness for C1: user 7 rates photo 1 with value 4 in `stateA`. -/
theorem rating_write_keeps_aggregates_witness :
    ∃ p, ((create_or_update_rating 1 7 4 stateA).2.photos.find? (fun q => q.id == 1)) = some p ∧
      p.total_ratings = (ratingsFor (create_or_update_rating 1 7 4 stateA).2 1).length ∧
      (ratingsFor (create_or_update_rating 1 7 4 stateA).2 1 = [] → p.average_rating = 0) ∧
      (ratingsFor (create_or_update_rating 1 7 4 stateA).2 1 ≠ [] →
        p.average_rating = round2 (ratingSum (ratingsFor (create_or_update_rating 1 7 4 stateA).2 1) /
          (ratingsFor (create_or_update_rating 1 7 4 stateA).2 1).length)) :=
  rating_write_keeps_aggregates stateA 1 7 4 (by decide)
/-! ### C3: at most one rating per (photo, user) pair, updated in place -/

/-- The pair-uniqueness invariant of the ratings collection (Mongo's unique
index on `(photo_id, user_id)`). -/
def PairUnique (l : List RatingRec) : Prop :=
  l.Pairwise (fun a b => ¬(a.photo_id = b.photo_id ∧ a.user_id = b.user_id))

instance (l : List RatingRec) : Decidable (PairUnique l) := by
  unfold PairUnique
  infer_instance

theorem countP_eq_one_of_find?_pairwise {α} (q : α → Bool) (a : α) :
    ∀ l : List α, l.Pairwise (fun x y => ¬(q x = true ∧ q y = true)) →
      l.find? q = some a → l.countP q = 1 := by
  intro l
  induction l with
  | nil => intro _ hex; simp at hex
  | cons x xs ih =>
    intro hpw hex
    rcases List.pairwise_cons.mp hpw with ⟨hx, hxs⟩
    cases hq : q x with
    | true =>
      have htail : xs.countP q = 0 :=
        List.countP_eq_zero.mpr (fun b hb hbq => hx b hb ⟨hq, hbq⟩)
      rw [List.countP_cons_of_pos q _ hq, htail]
    | false =>
      rw [List.find?_cons_of_neg _ (by simp [hq])] at hex
      rw [List.countP_cons_of_neg q _ (by simp [hq])]
      exact ih hxs hex

theorem find?_updateFirst_unique {α} (qp qi : α → Bool) (f : α → α) (a : α)
    (hqpf : qp (f a) = true) (hqia : qi a = true) :
    ∀ l : List α, l.find? qp = some a → (∀ b ∈ l, qi b = true → b = a) →
      (updateFirst l qi f).find? qp = some (f a) := by
  intro l
  induction l with
  | nil => intro hex _; simp at hex
  | cons x xs ih =>
    intro hex huniq
    cases hq : qp x with
    | true =>
      rw [List.find?_cons_of_pos _ hq] at hex
      injection hex with hex'
      subst hex'
      rw [updateFirst, if_pos hqia]
      exact List.find?_cons_of_pos _ hqpf
    | false =>
      rw [List.find?_cons_of_neg _ (by simp [hq])] at hex
      have hqi : qi x = false := by
        cases hqix : qi x with
        | false => rfl
        | true =>
          have hxa : x = a := huniq x (List.mem_cons_self x xs) hqix
          have hqa : qp a = true := List.find?_some hex
          rw [hxa] at hq
          rw [hq] at hqa
          cases hqa
      rw [updateFirst, if_neg (by simp [hqi]), List.find?_cons_of_neg _ (by simp [hq])]
      exact ih hex (fun b hb => huniq b (List.mem_cons_of_mem _ hb))

/-- Members of a list with pairwise-distinct keys are determined by their key. -/
theorem eq_of_key_eq_distinct {α} {key : α → Nat} {l : List α} {a b : α}
    (hd : l.Pairwise (fun x y => key x ≠ key y)) (ha : a ∈ l) (hb : b ∈ l)
    (hk : key b = key a) : b = a := by
  induction l with
  | nil => cases ha
  | cons x xs ih =>
    rcases List.pairwise_cons.mp hd with ⟨hx, hxs⟩
    rcases List.mem_cons.mp ha with rfl | ha' <;> rcases List.mem_cons.mp hb with rfl | hb'
    · rfl
    · exact absurd hk.symm (hx b hb')
    · exact absurd hk (hx a ha')
    · exact ih hxs ha' hb'

/-- C3: a rating write preserves the at-most-one-rating-per-pair invariant
(along with `_id` distinctness and freshness), leaves exactly one rating
document for the written pair, and — when the pair already had a rating —
rewrites that document in place: same `_id`, new value. -/
theorem rating_pair_unique (s : AppState) (pid uid rv : Nat)
    (hp : (s.photos.find? (fun p => p.id == pid)).isSome = true)
    (hids : s.ratings.Pairwise (fun a b => a.id ≠ b.id))
    (huniq : PairUnique s.ratings)
    (hfresh : ∀ r ∈ s.ratings, r.id < s.nextId) :
    ((create_or_update_rating pid uid rv s).2.ratings.countP
        (fun r => r.photo_id == pid && r.user_id == uid)) = 1 ∧
    (∀ ex, s.ratings.find? (fun r => r.photo_id == pid && r.user_id == uid) = some ex →
      (create_or_update_rating pid uid rv s).2.ratings.find?
          (fun r => r.photo_id == pid && r.user_id == uid) =
        some { ex with rating := rv, created_at := s.now }) ∧
    PairUnique (create_or_update_rating pid uid rv s).2.ratings ∧
    (create_or_update_rating pid uid rv s).2.ratings.Pairwise (fun a b => a.id ≠ b.id) ∧
    (∀ r ∈ (create_or_update_rating pid uid rv s).2.ratings,
      r.id < (create_or_update_rating pid uid rv s).2.nextId) := by
  obtain ⟨p0, hp0⟩ := Option.isSome_iff_exists.mp hp
  have hstate := create_or_update_rating_state pid uid rv s p0 hp0
  cases hex : s.ratings.find? (fun r => r.photo_id == pid && r.user_id == uid) with
  | some ex =>
    rw [hex] at hstate
    have hmem : ex ∈ s.ratings := List.mem_of_find?_eq_some hex
    have hstate2 : (create_or_update_rating pid uid rv s).2 =
        updatePhotoRating pid { s with ratings := updateFirst s.ratings (fun r => r.id == ex.id) (fun r => { r with rating := rv, created_at := s.now }) } := hstate
    have hrts : (create_or_update_rating pid uid rv s).2.ratings =
        updateFirst s.ratings (fun r => r.id == ex.id) (fun r => { r with rating := rv, created_at := s.now }) :=
      congrArg AppState.ratings hstate2
    have hnid : (create_or_update_rating pid uid rv s).2.nextId = s.nextId := by
      rw [hstate2]; rfl
    have hqp := List.find?_some hex
    have hkey : ∀ b ∈ s.ratings, (b.id == ex.id) = true → b = ex := by
      intro b hb hbid
      exact eq_of_key_eq_distinct hids hmem hb (by simpa using hbid)
    refine ⟨?_, ?_, ?_, ?_, ?_⟩
    · rw [hrts, countP_updateFirst s.ratings (fun r => r.id == ex.id)
        (fun r => r.photo_id == pid && r.user_id == uid)
        (fun r => { r with rating := rv, created_at := s.now }) (fun a => rfl)]
      refine countP_eq_one_of_find?_pairwise _ ex s.ratings ?_ hex
      refine huniq.imp ?_
      intro a b hab
      intro ⟨hqa, hqb⟩
      simp only [Bool.and_eq_true, beq_iff_eq] at hqa hqb
      exact hab ⟨hqa.1.trans hqb.1.symm, hqa.2.trans hqb.2.symm⟩
    · intro ex' hex'
      injection hex' with hex''
      subst hex''
      rw [hrts]
      exact find?_updateFirst_unique _ _ _ ex hqp (by simp) s.ratings hex hkey
    · rw [hrts]
      exact pairwise_updateFirst _ _ (fun a b h => h) (fun a b h => h) huniq
    · rw [hrts]
      exact pairwise_updateFirst _ _ (fun a b h => h) (fun a b h => h) hids
    · intro r hr
      rw [hrts] at hr
      rw [hnid]
      rcases mem_updateFirst hr with hr' | ⟨b, hb, rfl⟩
      · exact hfresh r hr'
      · exact hfresh b hb
  | none =>
    rw [hex] at hstate
    have hstate2 : (create_or_update_rating pid uid rv s).2 =
        updatePhotoRating pid { s with ratings := s.ratings ++ [{ id := s.nextId, photo_id := pid, user_id := uid, rating := rv, created_at := s.now }], nextId := s.nextId + 1 } := hstate
    have hrts : (create_or_update_rating pid uid rv s).2.ratings =
        s.ratings ++ [{ id := s.nextId, photo_id := pid, user_id := uid, rating := rv, created_at := s.now }] :=
      congrArg AppState.ratings hstate2
    have hnid : (create_or_update_rating pid uid rv s).2.nextId = s.nextId + 1 := by
      rw [hstate2]; rfl
    have hnopair := List.find?_eq_none.mp hex
    refine ⟨?_, ?_, ?_, ?_, ?_⟩
    · rw [hrts, List.countP_append, List.countP_eq_zero.mpr hnopair]
      simp
    · intro ex' hex'
      cases hex'
    · rw [hrts]
      refine List.pairwise_append.mpr ⟨huniq, List.pairwise_singleton _ _, ?_⟩
      intro a ha b hb
      rw [List.mem_singleton] at hb
      subst hb
      intro ⟨h1, h2⟩
      exact hnopair a ha (by simp [h1, h2])
    · rw [hrts]
      refine List.pairwise_append.mpr ⟨hids, List.pairwise_singleton _ _, ?_⟩
      intro a ha b hb
      rw [List.mem_singleton] at hb
      subst hb
      exact Nat.ne_of_lt (hfresh a ha)
    · intro r hr
      rw [hrts] at hr
      rw [hnid]
      rcases List.mem_append.mp hr with hr' | hr'
      · exact Nat.lt_succ_of_lt (hfresh r hr')
      · rw [List.mem_singleton] at hr'
        subst hr'
        exact Nat.lt_succ_self _

/-- Witness for C3: user 7 rates photo 1 in `stateA` (no prior ratings). -/
theorem rating_pair_unique_witness :
    ((create_or_update_rating 1 7 4 stateA).2.ratings.countP
        (fun r => r.photo_id == 1 && r.user_id == 7)) = 1 ∧
    (∀ ex, stateA.ratings.find? (fun r => r.photo_id == 1 && r.user_id == 7) = some ex →
      (create_or_update_rating 1 7 4 stateA).2.ratings.find?
          (fun r => r.photo_id == 1 && r.user_id == 7) =
        some { ex with rating := 4, created_at := stateA.now }) ∧
    PairUnique (create_or_update_rating 1 7 4 stateA).2.ratings ∧
    (create_or_update_rating 1 7 4 stateA).2.ratings.Pairwise (fun a b => a.id ≠ b.id) ∧
    (∀ r ∈ (create_or_update_rating 1 7 4 stateA).2.ratings,
      r.id < (create_or_update_rating 1 7 4 stateA).2.nextId) :=
  rating_pair_unique stateA 1 7 4 (by decide) (by decide) (by decide) (by decide)

/-! ### C4: double like-toggle -/

/-- The like document inserted by `toggle_like` when the pair has none. -/
def freshLike (pid uid : Nat) (s : AppState) : LikeRec :=
  { id := s.nextId, photo_id := pid, user_id := uid, liked := true, created_at := s.now }

theorem find?_append_singleton {α} (l : List α) (q : α → Bool) (x : α)
    (hl : ∀ a ∈ l, q a = false) (hx : q x = true) :
    (l ++ [x]).find? q = some x := by
  induction l with
  | nil =>
    rw [List.nil_append]
    exact List.find?_cons_of_pos _ hx
  | cons y ys ih =>
    have hy : q y = false := hl y (List.mem_cons_self y ys)
    rw [List.cons_append, List.find?_cons_of_neg _ (by simp [hy])]
    exact ih (fun a ha => hl a (List.mem_cons_of_mem _ ha))

theorem updateFirst_find?_isSome {α} (l : List α) (q : α → Bool) (f : α → α)
    (hf : ∀ a, q a = true → q (f a) = true) :
    ((updateFirst l q f).find? q).isSome = (l.find? q).isSome := by
  rw [find?_updateFirst l q f hf]
  cases l.find? q <;> rfl

theorem updatePhotoLikes_find_isSome (pid : Nat) (s : AppState) :
    ((updatePhotoLikes pid s).photos.find? (fun p => p.id == pid)).isSome =
      (s.photos.find? (fun p => p.id == pid)).isSome :=
  updateFirst_find?_isSome s.photos (fun p => p.id == pid) _ (fun a ha => ha)

theorem toggle_like_state_remove (pid uid : Nat) (s : AppState) (p0 : PhotoRec) (ex : LikeRec)
    (hp0 : s.photos.find? (fun p => p.id == pid) = some p0)
    (hex : s.likes.find? (fun l => l.photo_id == pid && l.user_id == uid) = some ex) :
    (toggle_like pid uid s).2 =
      { updatePhotoLikes pid { s with likes := removeFirst s.likes (fun l => l.id == ex.id) } with
        cache := invalidateLikeKeys pid s.cache } ∧
    (toggle_like pid uid s).1 =
      Except.ok { id := ex.id, photo_id := pid, user_id := uid, liked := false } := by
  refine ⟨?_, ?_⟩ <;> simp only [toggle_like, hp0, hex] <;> rfl

theorem toggle_like_state_insert (pid uid : Nat) (s : AppState) (p0 : PhotoRec)
    (hp0 : s.photos.find? (fun p => p.id == pid) = some p0)
    (hex : s.likes.find? (fun l => l.photo_id == pid && l.user_id == uid) = none) :
    (toggle_like pid uid s).2 =
      { updatePhotoLikes pid { s with likes := s.likes ++ [freshLike pid uid s], nextId := s.nextId + 1 } with
        cache := invalidateLikeKeys pid s.cache } ∧
    (toggle_like pid uid s).1 =
      Except.ok { id := s.nextId, photo_id := pid, user_id := uid, liked := true } := by
  refine ⟨?_, ?_⟩ <;> simp only [toggle_like, hp0, hex] <;> rfl

/-- C4 (amended): two successive like-toggles are an identity on the pair's
liked-status, and starting from no like record they restore the likes
collection exactly; starting from an existing like, the pair ends up liked
again but through a recreated record. -/
theorem double_toggle_like (s : AppState) (pid uid : Nat)
    (hp : (s.photos.find? (fun p => p.id == pid)).isSome = true)
    (hids : s.likes.Pairwise (fun a b => a.id ≠ b.id))
    (huniq : s.likes.Pairwise (fun a b => ¬(a.photo_id = b.photo_id ∧ a.user_id = b.user_id)))
    (hfresh : ∀ l ∈ s.likes, l.id < s.nextId) :
    ((toggle_like pid uid (toggle_like pid uid s).2).2.likes.any
        (fun l => l.photo_id == pid && l.user_id == uid)) =
      (s.likes.any (fun l => l.photo_id == pid && l.user_id == uid)) ∧
    (s.likes.find? (fun l => l.photo_id == pid && l.user_id == uid) = none →
      (toggle_like pid uid (toggle_like pid uid s).2).2.likes = s.likes) := by
  obtain ⟨p0, hp0⟩ := Option.isSome_iff_exists.mp hp
  cases hex : s.likes.find? (fun l => l.photo_id == pid && l.user_id == uid) with
  | none =>
    obtain ⟨h1, -⟩ := toggle_like_state_insert pid uid s p0 hp0 hex
    have h1likes : (toggle_like pid uid s).2.likes = s.likes ++ [freshLike pid uid s] := by
      rw [h1]; rfl
    have hp1 : ((toggle_like pid uid s).2.photos.find? (fun p => p.id == pid)).isSome = true := by
      rw [h1]
      show ((updatePhotoLikes pid _).photos.find? (fun p => p.id == pid)).isSome = true
      rw [updatePhotoLikes_find_isSome]
      show (s.photos.find? (fun p => p.id == pid)).isSome = true
      rw [hp0]
      rfl
    obtain ⟨p1, hp1'⟩ := Option.isSome_iff_exists.mp hp1
    have hnofirst : ∀ a ∈ s.likes, (a.photo_id == pid && a.user_id == uid) = false := by
      intro a ha
      have hna := List.find?_eq_none.mp hex a ha
      cases h : (a.photo_id == pid && a.user_id == uid) with
      | false => rfl
      | true => exact absurd h hna
    have hex2 : (toggle_like pid uid s).2.likes.find?
        (fun l => l.photo_id == pid && l.user_id == uid) = some (freshLike pid uid s) := by
      rw [h1likes]
      exact find?_append_singleton _ _ _ hnofirst (by simp [freshLike])
    obtain ⟨h3, -⟩ :=
      toggle_like_state_remove pid uid _ p1 (freshLike pid uid s) hp1' hex2
    have h3likes : (toggle_like pid uid (toggle_like pid uid s).2).2.likes =
        removeFirst (toggle_like pid uid s).2.likes
          (fun l => l.id == (freshLike pid uid s).id) := by
      rw [h3]; rfl
    have hrm : removeFirst (toggle_like pid uid s).2.likes
        (fun l => l.id == (freshLike pid uid s).id) = s.likes := by
      rw [h1likes]
      refine removeFirst_append_singleton _ _ _ (by simp) ?_
      intro a ha
      have hlt : a.id < s.nextId := hfresh a ha
      simp only [freshLike, beq_eq_false_iff_ne, ne_eq]
      omega
    refine ⟨?_, fun _ => ?_⟩
    · rw [h3likes, hrm]
    · rw [h3likes, hrm]
  | some ex =>
    have hmem : ex ∈ s.likes := List.mem_of_find?_eq_some hex
    have hqp := List.find?_some hex
    obtain ⟨h1, -⟩ := toggle_like_state_remove pid uid s p0 ex hp0 hex
    have h1likes : (toggle_like pid uid s).2.likes =
        removeFirst s.likes (fun l => l.id == ex.id) := by
      rw [h1]; rfl
    have hp1 : ((toggle_like pid uid s).2.photos.find? (fun p => p.id == pid)).isSome = true := by
      rw [h1]
      show ((updatePhotoLikes pid _).photos.find? (fun p => p.id == pid)).isSome = true
      rw [updatePhotoLikes_find_isSome]
      show (s.photos.find? (fun p => p.id == pid)).isSome = true
      rw [hp0]
      rfl
    obtain ⟨p1, hp1'⟩ := Option.isSome_iff_exists.mp hp1
    have hsym : Symmetric (fun a b : LikeRec =>
        ¬(a.photo_id = b.photo_id ∧ a.user_id = b.user_id)) := by
      intro a b h hc
      exact h ⟨hc.1.symm, hc.2.symm⟩
    have hex2 : (toggle_like pid uid s).2.likes.find?
        (fun l => l.photo_id == pid && l.user_id == uid) = none := by
      rw [h1likes, List.find?_eq_none]
      intro b hb hbq
      obtain ⟨hbmem, hbne⟩ := mem_removeFirst_of_distinct hids hmem hb
      have hR := List.Pairwise.forall hsym huniq hbmem hmem hbne
      simp only [Bool.and_eq_true, beq_iff_eq] at hbq hqp
      exact hR ⟨hbq.1.trans hqp.1.symm, hbq.2.trans hqp.2.symm⟩
    obtain ⟨h3, -⟩ := toggle_like_state_insert pid uid _ p1 hp1' hex2
    have h3likes : (toggle_like pid uid (toggle_like pid uid s).2).2.likes =
        (toggle_like pid uid s).2.likes ++ [freshLike pid uid (toggle_like pid uid s).2] := by
      rw [h3]; rfl
    refine ⟨?_, fun hcontra => Option.noConfusion hcontra⟩
    rw [h3likes, List.any_append]
    have hnew : ([freshLike pid uid (toggle_like pid uid s).2].any
        (fun l => l.photo_id == pid && l.user_id == uid)) = true := by
      simp [freshLike]
    have hsany : s.likes.any (fun l => l.photo_id == pid && l.user_id == uid) = true :=
      List.any_eq_true.mpr ⟨ex, hmem, hqp⟩
    rw [hnew, Bool.or_true, hsany]

/-- A state in which photo 1 already carries a like by user 7, for the C4
counterexample. -/
def stateLiked : AppState :=
  { photos := [photoA], users := [{ id := 5, username := "alice" }],
    ratings := [],
    likes := [{ id := 0, photo_id := 1, user_id := 7, liked := true, created_at := 3 }],
    comments := [], cache := [], media := [11], nextId := 1, now := 50 }

/-- C4 counterexample: starting from an existing like, both toggles succeed
but the final Like records for the pair differ from the initial ones (the
record is recreated with a fresh id), so the double toggle is not an
identity on the Like collection's state for the pair. -/
theorem double_toggle_like_counterexample :
    (toggle_like 1 7 stateLiked).1.toOption =
      some { id := 0, photo_id := 1, user_id := 7, liked := false } ∧
    (toggle_like 1 7 (toggle_like 1 7 stateLiked).2).1.toOption =
      some { id := 1, photo_id := 1, user_id := 7, liked := true } ∧
    (toggle_like 1 7 (toggle_like 1 7 stateLiked).2).2.likes.filter
        (fun l => l.photo_id == 1 && l.user_id == 7) ≠
      stateLiked.likes.filter (fun l => l.photo_id == 1 && l.user_id == 7) := by
  refine ⟨?_, ?_, ?_⟩ <;> decide

/-- Witness for the amended C4 theorem at `stateLiked`. -/
theorem double_toggle_like_witness :
    ((toggle_like 1 7 (toggle_like 1 7 stateLiked).2).2.likes.any
        (fun l => l.photo_id == 1 && l.user_id == 7)) =
      (stateLiked.likes.any (fun l => l.photo_id == 1 && l.user_id == 7)) ∧
    (stateLiked.likes.find? (fun l => l.photo_id == 1 && l.user_id == 7) = none →
      (toggle_like 1 7 (toggle_like 1 7 stateLiked).2).2.likes = stateLiked.likes) :=
  double_toggle_like stateLiked 1 7 (by decide) (by decide) (by decide) (by decide)

/-! ### C2 / C9: delete and update of photos -/

theorem filter_not_filter {α} (l : List α) (q : α → Bool) :
    (l.filter (fun a => !(q a))).filter q = [] := by
  rw [List.filter_eq_nil]
  intro a ha
  have h := (List.mem_filter.mp ha).2
  simp at h
  simp [h]

/-- The success branch of `delete_photo`: Cloudinary asset removed, photo
document removed, comments and ratings of the photo removed, cache keys
invalidated — and the likes collection left as is. -/
theorem delete_photo_state (pid uid : Nat) (s : AppState) (p0 : PhotoRec)
    (hp0 : s.photos.find? (fun p => p.id == pid) = some p0)
    (hown : p0.creator_id = uid) :
    (delete_photo pid uid s).1 = Except.ok true ∧
    (delete_photo pid uid s).2 =
      { photos := removeFirst s.photos (fun q => q.id == pid),
        users := s.users,
        ratings := s.ratings.filter (fun r => !(r.photo_id == pid)),
        likes := s.likes,
        comments := s.comments.filter (fun c => !(c.photo_id == pid)),
        cache := (invalidatePhotoKeys pid uid s.cache).filter (fun k => !(k == ratingsKey pid)),
        media := removeFirst s.media (fun m => m == p0.cloudinary_public_id),
        nextId := s.nextId, now := s.now } := by
  refine ⟨?_, ?_⟩ <;> simp only [delete_photo, hp0, hown, bne_self_eq_false,
    Bool.false_eq_true, if_false] <;> rfl

/-- C2 (amended): a successful `delete_photo` removes every comment and every
rating that references the photo, but leaves the likes collection untouched
(no cascade to likes). -/
theorem delete_photo_cascade (s : AppState) (pid uid : Nat) (p0 : PhotoRec)
    (hp0 : s.photos.find? (fun p => p.id == pid) = some p0)
    (hown : p0.creator_id = uid) :
    (delete_photo pid uid s).1 = Except.ok true ∧
    (delete_photo pid uid s).2.comments.filter (fun c => c.photo_id == pid) = [] ∧
    (delete_photo pid uid s).2.ratings.filter (fun r => r.photo_id == pid) = [] ∧
    (delete_photo pid uid s).2.likes = s.likes := by
  obtain ⟨hres, hst⟩ := delete_photo_state pid uid s p0 hp0 hown
  refine ⟨hres, ?_, ?_, ?_⟩
  · rw [hst]
    exact filter_not_filter s.comments (fun c => c.photo_id == pid)
  · rw [hst]
    exact filter_not_filter s.ratings (fun r => r.photo_id == pid)
  · rw [hst]

/-- C2 counterexample: deleting photo 1 (owned by user 5) succeeds, yet the
like record referencing photo 1 is still stored afterwards. -/
theorem delete_photo_cascade_counterexample :
    (delete_photo 1 5 stateLiked).1.toOption = some true ∧
    (delete_photo 1 5 stateLiked).2.likes.any (fun l => l.photo_id == 1) = true := by
  refine ⟨?_, ?_⟩ <;> decide

/-- Witness for the amended C2 theorem at `stateLiked`. -/
theorem delete_photo_cascade_witness :
    (delete_photo 1 5 stateLiked).1 = Except.ok true ∧
    (delete_photo 1 5 stateLiked).2.comments.filter (fun c => c.photo_id == 1) = [] ∧
    (delete_photo 1 5 stateLiked).2.ratings.filter (fun r => r.photo_id == 1) = [] ∧
    (delete_photo 1 5 stateLiked).2.likes = stateLiked.likes :=
  delete_photo_cascade stateLiked 1 5 photoA (by decide) (by decide)

/-- C9: invoked by a non-owner, both `update_photo` and `delete_photo` fail
with a Forbidden error and return the state completely unchanged — photo,
child collections, cache and external media included. -/
theorem ownership_guard_no_mutation (s : AppState) (pid uid : Nat)
    (upd : PhotoUpdate) (p0 : PhotoRec)
    (hp0 : s.photos.find? (fun p => p.id == pid) = some p0)
    (hown : p0.creator_id ≠ uid) :
    update_photo pid upd uid s = (Except.error Err.forbidden, s) ∧
    delete_photo pid uid s = (Except.error Err.forbidden, s) := by
  have hbne : (p0.creator_id != uid) = true := by simpa using hown
  constructor
  · simp only [update_photo, hp0, hbne, if_true]
  · simp only [delete_photo, hp0, hbne, if_true]

/-- Witness for C9: user 9 (not the owner) attacks photo 1 of `stateA`. -/
theorem ownership_guard_no_mutation_witness :
    update_photo 1 { title := some "x", caption := none, location := none, people_present := none } 9 stateA =
      (Except.error Err.forbidden, stateA) ∧
    delete_photo 1 9 stateA = (Except.error Err.forbidden, stateA) :=
  ownership_guard_no_mutation stateA 1 9
    { title := some "x", caption := none, location := none, people_present := none }
    photoA (by decide) (by decide)

/-! ### C7: the rating write path and the cache -/

/-- C7 (amended): `create_or_update_rating` performs no cache invalidation:
the set of live cache keys after a rating write is exactly the one before,
so a cached photo point key or rating-stats key survives the write. -/
theorem rating_write_leaves_cache (s : AppState) (pid uid rv : Nat) :
    (create_or_update_rating pid uid rv s).2.cache = s.cache := by
  cases hfp : s.photos.find? (fun p => p.id == pid) with
  | none =>
    have hid : (create_or_update_rating pid uid rv s).2 = s := by
      simp only [create_or_update_rating, hfp]
    rw [hid]
  | some p0 =>
    have hstate := create_or_update_rating_state pid uid rv s p0 hfp
    cases hex : s.ratings.find? (fun r => r.photo_id == pid && r.user_id == uid) with
    | some ex =>
      rw [hex] at hstate
      rw [hstate]
      rfl
    | none =>
      rw [hex] at hstate
      rw [hstate]
      rfl

/-- A state whose cache already holds photo 1's point key and rating-stats
key, for the C7 counterexample. -/
def stateCached : AppState :=
  { photos := [photoA], users := [{ id := 5, username := "alice" }],
    ratings := [], likes := [], comments := [],
    cache := ["photo:1", "ratings:photo:1"], media := [11], nextId := 3, now := 9 }

/-- C7 counterexample: a successful rating write leaves both the photo's
point key and its rating-stats key in the cache. -/
theorem rating_write_leaves_cache_counterexample :
    (create_or_update_rating 1 7 4 stateCached).1.toOption.isSome = true ∧
    ((create_or_update_rating 1 7 4 stateCached).2.cache.contains "photo:1") = true ∧
    ((create_or_update_rating 1 7 4 stateCached).2.cache.contains "ratings:photo:1") = true := by
  refine ⟨?_, ?_, ?_⟩ <;> decide

/-! ### C6: cache operations are best-effort and never propagate errors -/

theorem cacheGet_isOk (e c : Bool) (f : CallResult (Option String))
    (d : String → CallResult String) : ∃ r, cacheGet e c f d = Except.ok r := by
  cases e with
  | false => exact ⟨none, rfl⟩
  | true =>
    cases c with
    | false => exact ⟨none, rfl⟩
    | true =>
      cases f with
      | exc => exact ⟨none, rfl⟩
      | ok v =>
        cases v with
        | none => exact ⟨none, rfl⟩
        | some raw =>
          by_cases hr : raw = ""
          · exact ⟨none, by simp [cacheGet, hr]⟩
          · cases hd : d raw with
            | exc => exact ⟨none, by simp [cacheGet, hr, hd]⟩
            | ok v' => exact ⟨some v', by simp [cacheGet, hr, hd]⟩

theorem cacheSet_isOk (e c : Bool) (w : CallResult Unit) :
    ∃ b, cacheSet e c w = Except.ok b := by
  cases e <;> cases c <;> cases w <;> exact ⟨_, rfl⟩

theorem cacheDelete_isOk (e c : Bool) (w : CallResult Unit) :
    ∃ b, cacheDelete e c w = Except.ok b := by
  cases e <;> cases c <;> cases w <;> exact ⟨_, rfl⟩

theorem cacheDeleteByPrefix_isOk (e c : Bool) (kc : CallResult (List String))
    (dc : CallResult Unit) : ∃ b, cacheDeleteByPrefix e c kc dc = Except.ok b := by
  cases e with
  | false => exact ⟨false, rfl⟩
  | true =>
    cases c with
    | false => exact ⟨false, rfl⟩
    | true =>
      cases kc with
      | exc => exact ⟨false, rfl⟩
      | ok keys =>
        cases keys with
        | nil => exact ⟨true, rfl⟩
        | cons k ks => cases dc <;> exact ⟨_, rfl⟩

/-- C6: every cache operation is total and best-effort: no call ever
surfaces an error; a disabled cache or a raising client call makes `get`
return absent and makes `set`/`delete`/`delete_pattern` return `false`
without propagating anything. -/
theorem cache_operations_best_effort :
    (∀ (e c : Bool) (f : CallResult (Option String)) (d : String → CallResult String),
      ∃ r, cacheGet e c f d = Except.ok r) ∧
    (∀ (e c : Bool) (d : String → CallResult String),
      cacheGet e c CallResult.exc d = Except.ok none) ∧
    (∀ (c : Bool) (f : CallResult (Option String)) (d : String → CallResult String),
      cacheGet false c f d = Except.ok none) ∧
    (∀ (f : CallResult (Option String)) (d : String → CallResult String),
      cacheGet true false f d = Except.ok none) ∧
    (∀ (e c : Bool) (w : CallResult Unit), ∃ b, cacheSet e c w = Except.ok b) ∧
    (∀ (e c : Bool), cacheSet e c CallResult.exc = Except.ok false) ∧
    (∀ (e c : Bool) (w : CallResult Unit), ∃ b, cacheDelete e c w = Except.ok b) ∧
    (∀ (e c : Bool), cacheDelete e c CallResult.exc = Except.ok false) ∧
    (∀ (e c : Bool) (kc : CallResult (List String)) (dc : CallResult Unit),
      ∃ b, cacheDeleteByPrefix e c kc dc = Except.ok b) ∧
    (∀ (e c : Bool) (dc : CallResult Unit),
      cacheDeleteByPrefix e c CallResult.exc dc = Except.ok false) := by
  refine ⟨cacheGet_isOk, ?_, ?_, ?_, cacheSet_isOk, ?_, cacheDelete_isOk, ?_,
    cacheDeleteByPrefix_isOk, ?_⟩
  · intro e c d
    cases e <;> cases c <;> rfl
  · intro c f d
    rfl
  · intro f d
    rfl
  · intro e c
    cases e <;> cases c <;> rfl
  · intro e c
    cases e <;> cases c <;> rfl
  · intro e c dc
    cases e <;> cases c <;> rfl

/-! ### C8: listing sort order -/

/-- The sort key relation of the listing: newest (largest upload date) first. -/
def DateDesc (a b : PhotoRec) : Prop := b.upload_date ≤ a.upload_date

theorem mem_insDesc (x a : PhotoRec) (l : List PhotoRec) :
    a ∈ insDesc x l ↔ a = x ∨ a ∈ l := by
  induction l with
  | nil => simp [insDesc]
  | cons y ys ih =>
    by_cases h : x.upload_date ≥ y.upload_date
    · simp only [insDesc, if_pos h, List.mem_cons]
    · simp only [insDesc, if_neg h, List.mem_cons, ih]
      tauto

theorem pairwise_insDesc (x : PhotoRec) (l : List PhotoRec)
    (h : l.Pairwise DateDesc) : (insDesc x l).Pairwise DateDesc := by
  induction l with
  | nil => simp [insDesc]
  | cons y ys ih =>
    rcases List.pairwise_cons.mp h with ⟨hy, hys⟩
    by_cases hc : x.upload_date ≥ y.upload_date
    · rw [insDesc, if_pos hc]
      refine List.pairwise_cons.mpr ⟨?_, h⟩
      intro b hb
      rcases List.mem_cons.mp hb with rfl | hbys
      · exact hc
      · exact Nat.le_trans (hy b hbys) hc
    · rw [insDesc, if_neg hc]
      refine List.pairwise_cons.mpr ⟨?_, ih hys⟩
      intro b hb
      rcases (mem_insDesc x b ys).mp hb with rfl | hbys
      · exact Nat.le_of_lt (Nat.lt_of_not_le hc)
      · exact hy b hbys

theorem pairwise_sortByDateDesc (l : List PhotoRec) :
    (sortByDateDesc l).Pairwise DateDesc := by
  induction l with
  | nil => exact List.Pairwise.nil
  | cons x xs ih => exact pairwise_insDesc x _ ih

theorem enrich_photo (users : List UserRec) (p : PhotoRec) :
    (enrich users p).photo = p := by
  unfold enrich
  cases users.find? (fun u => u.id == p.creator_id) <;> rfl

theorem get_photos_photos_eq (page page_size : Nat) (search location : Option String)
    (s : AppState) :
    (get_photos page page_size search location s).photos =
      (((sortByDateDesc (s.photos.filter (matchesQuery search location))).drop
        ((page - 1) * page_size)).take page_size).map (enrich s.users) := rfl

/-- C8 (amended): the photos of a listing page are sorted
newest-upload-first — weakly decreasing upload date — with no secondary sort
key (equal dates stay in store order). -/
theorem get_photos_sorted (page page_size : Nat) (search location : Option String)
    (s : AppState) :
    (get_photos page page_size search location s).photos.Pairwise
      (fun a b => b.photo.upload_date ≤ a.photo.upload_date) := by
  rw [get_photos_photos_eq, List.pairwise_map]
  have hs := pairwise_sortByDateDesc (s.photos.filter (matchesQuery search location))
  have hdropped : ((sortByDateDesc (s.photos.filter (matchesQuery search location))).drop
      ((page - 1) * page_size)).Pairwise DateDesc :=
    hs.sublist (List.drop_sublist _ _)
  have htaken := hdropped.sublist
    (List.take_sublist page_size ((sortByDateDesc (s.photos.filter (matchesQuery search location))).drop ((page - 1) * page_size)))
  refine htaken.imp ?_
  intro a b hab
  rw [enrich_photo, enrich_photo]
  exact hab

/-- A second photo with the same upload date as `photoA` but another id. -/
def photoB : PhotoRec :=
  { id := 2, creator_id := 5, title := "Dunes", caption := none,
    location := none, people_present := [], cloudinary_public_id := 12,
    cloudinary_url := "https://img/b", thumbnail_url := "https://img/b-t",
    average_rating := 0, total_ratings := 0, total_likes := 0,
    meta := { width := none, height := none, format := none, size := none },
    upload_date := 10 }

/-- Store holding `photoA` before `photoB` (equal upload dates). -/
def stateOrd1 : AppState :=
  { photos := [photoA, photoB], users := [], ratings := [], likes := [],
    comments := [], cache := [], media := [11, 12], nextId := 50, now := 50 }

/-- The same photo set stored in the opposite order. -/
def stateOrd2 : AppState :=
  { photos := [photoB, photoA], users := [], ratings := [], likes := [],
    comments := [], cache := [], media := [11, 12], nextId := 50, now := 50 }

/-- C8 counterexample: two stores with the same set of photos (equal upload
dates, ids 1 and 2) produce differently ordered listings — the order follows
store order, not an id tie-break, so it is not determined by the photo set. -/
theorem get_photos_sorted_counterexample :
    stateOrd1.photos.Perm stateOrd2.photos ∧
    ((get_photos 1 20 none none stateOrd1).photos.map (fun o => o.photo.id)) = [1, 2] ∧
    ((get_photos 1 20 none none stateOrd2).photos.map (fun o => o.photo.id)) = [2, 1] ∧
    (get_photos 1 20 none none stateOrd1).photos ≠ (get_photos 1 20 none none stateOrd2).photos := by
  refine ⟨?_, ?_, ?_, ?_⟩ <;> decide

/-! ### C5: pagination arithmetic -/

theorem matchesQuery_none_none (p : PhotoRec) : matchesQuery none none p = true := rfl

theorem get_photos_total_eq (page page_size : Nat) (search location : Option String)
    (s : AppState) :
    (get_photos page page_size search location s).total =
      if page == 1 && search.isNone && location.isNone then s.photos.length
      else (s.photos.filter (matchesQuery search location)).length := rfl

theorem get_photos_total_pages_eq (page page_size : Nat) (search location : Option String)
    (s : AppState) :
    (get_photos page page_size search location s).total_pages =
      if (get_photos page page_size search location s).total > 0 then
        ((get_photos page page_size search location s).total + page_size - 1) / page_size
      else 1 := rfl

theorem length_insDesc (x : PhotoRec) (l : List PhotoRec) :
    (insDesc x l).length = l.length + 1 := by
  induction l with
  | nil => rfl
  | cons y ys ih =>
    by_cases h : x.upload_date ≥ y.upload_date
    · rw [insDesc, if_pos h]
      rfl
    · rw [insDesc, if_neg h]
      simp [ih]

theorem length_sortByDateDesc (l : List PhotoRec) :
    (sortByDateDesc l).length = l.length := by
  induction l with
  | nil => rfl
  | cons x xs ih =>
    rw [sortByDateDesc, length_insDesc, ih]
    rfl

/-- C5: the listing's `total` is the number of matching photos, its
`total_pages` is `ceil(total / page_size)` with a floor of one page when
nothing matches, and requesting any page past `total_pages` returns an
empty photo list (the listing is a total function — no error). -/
theorem get_photos_pagination (page page_size : Nat) (search location : Option String)
    (s : AppState) (hpage : 1 ≤ page) (hsize : 1 ≤ page_size)
    (hsize' : page_size ≤ 100) :
    (get_photos page page_size search location s).total =
      (s.photos.filter (matchesQuery search location)).length ∧
    ((get_photos page page_size search location s).total > 0 →
      (get_photos page page_size search location s).total_pages =
        ((get_photos page page_size search location s).total + page_size - 1) / page_size) ∧
    ((get_photos page page_size search location s).total = 0 →
      (get_photos page page_size search location s).total_pages = 1) ∧
    (page > (get_photos page page_size search location s).total_pages →
      (get_photos page page_size search location s).photos = []) := by
  have htot : (get_photos page page_size search location s).total =
      (s.photos.filter (matchesQuery search location)).length := by
    rw [get_photos_total_eq]
    by_cases hcond : (page == 1 && search.isNone && location.isNone) = true
    · rw [if_pos hcond]
      simp only [Bool.and_eq_true, Option.isNone_iff_eq_none] at hcond
      obtain ⟨⟨-, hse⟩, hlo⟩ := hcond
      subst hse
      subst hlo
      rw [List.filter_eq_self.mpr (fun a _ => matchesQuery_none_none a)]
    · rw [if_neg hcond]
  refine ⟨htot, ?_, ?_, ?_⟩
  · intro hpos
    rw [get_photos_total_pages_eq, if_pos hpos]
  · intro hzero
    rw [get_photos_total_pages_eq, if_neg (by omega)]
  · intro hbeyond
    rw [get_photos_total_pages_eq] at hbeyond
    rw [get_photos_photos_eq]
    have hlen : (sortByDateDesc (s.photos.filter (matchesQuery search location))).length =
        (s.photos.filter (matchesQuery search location)).length :=
      length_sortByDateDesc _
    by_cases hpos : (get_photos page page_size search location s).total > 0
    · rw [if_pos hpos] at hbeyond
      rw [htot] at hpos
      set N := (s.photos.filter (matchesQuery search location)).length with hN
      have htp : (get_photos page page_size search location s).total + page_size - 1 =
          N + page_size - 1 := by rw [htot]
      rw [htp] at hbeyond
      have hd1 := Nat.div_add_mod (N + page_size - 1) page_size
      have hd2 := Nat.mod_lt (N + page_size - 1) (show 0 < page_size by omega)
      have hkey2 : ∀ A R : Nat, A + R = N + page_size - 1 → R < page_size → N ≤ A := by
        intro A R h1' h2'
        omega
      have hskipN : N ≤ (page - 1) * page_size := by
        have h1 : N ≤ ((N + page_size - 1) / page_size) * page_size := by
          rw [Nat.mul_comm]
          exact hkey2 _ _ hd1 hd2
        have h2 : (N + page_size - 1) / page_size ≤ page - 1 :=
          Nat.le_sub_one_of_lt hbeyond
        calc N ≤ ((N + page_size - 1) / page_size) * page_size := h1
          _ ≤ (page - 1) * page_size := Nat.mul_le_mul_right _ h2
      have hdrop : (sortByDateDesc (s.photos.filter (matchesQuery search location))).drop
          ((page - 1) * page_size) = [] := by
        apply List.drop_eq_nil_of_le
        rw [hlen]
        exact hskipN
      rw [hdrop]
      simp
    · have hzero : (s.photos.filter (matchesQuery search location)).length = 0 := by
        rw [htot] at hpos
        omega
      have hnil : s.photos.filter (matchesQuery search location) = [] :=
        List.length_eq_zero.mp hzero
      rw [hnil]
      simp [sortByDateDesc]

/-- Witness for C5: page 5 of `stateA` with page size 10 is empty and the
page arithmetic holds. -/
theorem get_photos_pagination_witness :
    (get_photos 5 10 none none stateA).total =
      (stateA.photos.filter (matchesQuery none none)).length ∧
    ((get_photos 5 10 none none stateA).total > 0 →
      (get_photos 5 10 none none stateA).total_pages =
        ((get_photos 5 10 none none stateA).total + 10 - 1) / 10) ∧
    ((get_photos 5 10 none none stateA).total = 0 →
      (get_photos 5 10 none none stateA).total_pages = 1) ∧
    (5 > (get_photos 5 10 none none stateA).total_pages →
      (get_photos 5 10 none none stateA).photos = []) :=
  get_photos_pagination 5 10 none none stateA (by decide) (by decide) (by decide)

/-! ### C10: the rating statistics distribution -/

theorem buildDist_concrete (rs : List RatingRec) :
    ∀ a b c d e : Nat, (∀ r ∈ rs, 1 ≤ r.rating ∧ r.rating ≤ 5) →
      buildDist rs [(1, a), (2, b), (3, c), (4, d), (5, e)] =
        some [(1, a + rs.countP (fun r => r.rating == 1)),
              (2, b + rs.countP (fun r => r.rating == 2)),
              (3, c + rs.countP (fun r => r.rating == 3)),
              (4, d + rs.countP (fun r => r.rating == 4)),
              (5, e + rs.countP (fun r => r.rating == 5))] := by
  induction rs with
  | nil =>
    intro a b c d e _
    simp [buildDist]
  | cons r rest ih =>
    intro a b c d e hall
    have hr := hall r (List.mem_cons_self r rest)
    have hrest : ∀ x ∈ rest, 1 ≤ x.rating ∧ x.rating ≤ 5 :=
      fun x hx => hall x (List.mem_cons_of_mem _ hx)
    obtain ⟨rid, rpid, ruid, rv, rts⟩ := r
    obtain ⟨h1, h5⟩ := hr
    simp only at h1 h5
    interval_cases rv
    · show buildDist rest [(1, a + 1), (2, b), (3, c), (4, d), (5, e)] = _
      rw [ih (a + 1) b c d e hrest]
      simp [List.countP_cons]
      omega
    · show buildDist rest [(1, a), (2, b + 1), (3, c), (4, d), (5, e)] = _
      rw [ih a (b + 1) c d e hrest]
      simp [List.countP_cons]
      omega
    · show buildDist rest [(1, a), (2, b), (3, c + 1), (4, d), (5, e)] = _
      rw [ih a b (c + 1) d e hrest]
      simp [List.countP_cons]
      omega
    · show buildDist rest [(1, a), (2, b), (3, c), (4, d + 1), (5, e)] = _
      rw [ih a b c (d + 1) e hrest]
      simp [List.countP_cons]
      omega
    · show buildDist rest [(1, a), (2, b), (3, c), (4, d), (5, e + 1)] = _
      rw [ih a b c d (e + 1) hrest]
      simp [List.countP_cons]
      omega

theorem countP_rating_partition (rs : List RatingRec)
    (hall : ∀ r ∈ rs, 1 ≤ r.rating ∧ r.rating ≤ 5) :
    rs.countP (fun r => r.rating == 1) + rs.countP (fun r => r.rating == 2) +
      rs.countP (fun r => r.rating == 3) + rs.countP (fun r => r.rating == 4) +
      rs.countP (fun r => r.rating == 5) = rs.length := by
  induction rs with
  | nil => rfl
  | cons r rest ih =>
    have hr := hall r (List.mem_cons_self r rest)
    have hrest : ∀ x ∈ rest, 1 ≤ x.rating ∧ x.rating ≤ 5 :=
      fun x hx => hall x (List.mem_cons_of_mem _ hx)
    have hres := ih hrest
    simp only [List.countP_cons, List.length_cons]
    obtain ⟨rid, rpid, ruid, rv, rts⟩ := r
    obtain ⟨h1, h5⟩ := hr
    simp only at h1 h5
    interval_cases rv <;> simp <;> omega

/-- C10: when every stored rating of the photo lies in 1..5, the stats
endpoint succeeds and returns the exact per-value distribution for values 1
through 5; the distribution's counts sum to `total_ratings`; with no
ratings, the average is 0.0, the total is 0, and every bucket is 0. -/
theorem rating_stats_distribution (s : AppState) (pid : Nat)
    (hp : (s.photos.find? (fun p => p.id == pid)).isSome = true)
    (hrange : ∀ r ∈ ratingsFor s pid, 1 ≤ r.rating ∧ r.rating ≤ 5) :
    ∃ st, get_photo_rating_stats pid s = Except.ok st ∧
      st.total_ratings = (ratingsFor s pid).length ∧
      (∀ v, 1 ≤ v → v ≤ 5 →
        distGet st.rating_distribution v =
          some ((ratingsFor s pid).countP (fun r => r.rating == v))) ∧
      (st.rating_distribution.map Prod.snd).sum = st.total_ratings ∧
      (ratingsFor s pid = [] →
        st.average_rating = 0 ∧ st.total_ratings = 0 ∧
        st.rating_distribution = zeroDist) := by
  obtain ⟨p0, hp0⟩ := Option.isSome_iff_exists.mp hp
  by_cases hlen : (ratingsFor s pid).length = 0
  · have hnil : ratingsFor s pid = [] := List.length_eq_zero.mp hlen
    refine ⟨{ average_rating := 0, total_ratings := 0, rating_distribution := zeroDist },
      ?_, ?_, ?_, ?_, ?_⟩
    · simp only [get_photo_rating_stats, hp0]
      rw [if_pos hlen]
    · rw [hlen]
    · intro v h1 h5
      interval_cases v <;> simp [zeroDist, distGet, hnil]
    · rfl
    · intro _
      exact ⟨rfl, rfl, rfl⟩
  · have hbuild0 := buildDist_concrete (ratingsFor s pid) 0 0 0 0 0 hrange
    have hbuild : buildDist (ratingsFor s pid) zeroDist =
        some [(1, 0 + (ratingsFor s pid).countP (fun r => r.rating == 1)),
              (2, 0 + (ratingsFor s pid).countP (fun r => r.rating == 2)),
              (3, 0 + (ratingsFor s pid).countP (fun r => r.rating == 3)),
              (4, 0 + (ratingsFor s pid).countP (fun r => r.rating == 4)),
              (5, 0 + (ratingsFor s pid).countP (fun r => r.rating == 5))] := hbuild0
    refine ⟨{ average_rating := round2 (ratingSum (ratingsFor s pid) / (ratingsFor s pid).length),
              total_ratings := (ratingsFor s pid).length,
              rating_distribution :=
                [(1, 0 + (ratingsFor s pid).countP (fun r => r.rating == 1)),
                 (2, 0 + (ratingsFor s pid).countP (fun r => r.rating == 2)),
                 (3, 0 + (ratingsFor s pid).countP (fun r => r.rating == 3)),
                 (4, 0 + (ratingsFor s pid).countP (fun r => r.rating == 4)),
                 (5, 0 + (ratingsFor s pid).countP (fun r => r.rating == 5))] },
      ?_, rfl, ?_, ?_, ?_⟩
    · simp only [get_photo_rating_stats, hp0]
      rw [if_neg hlen, hbuild]
    · intro v h1 h5
      interval_cases v <;> simp [distGet]
    · show (0 + (ratingsFor s pid).countP (fun r => r.rating == 1)) +
        ((0 + (ratingsFor s pid).countP (fun r => r.rating == 2)) +
        ((0 + (ratingsFor s pid).countP (fun r => r.rating == 3)) +
        ((0 + (ratingsFor s pid).countP (fun r => r.rating == 4)) +
        ((0 + (ratingsFor s pid).countP (fun r => r.rating == 5)) + 0)))) =
          (ratingsFor s pid).length
      have hpart := countP_rating_partition (ratingsFor s pid) hrange
      omega
    · intro h
      rw [h] at hlen
      exact absurd rfl hlen

/-- A state in which photo 1 carries two ratings (values 4 and 2), for the
C10 witness. -/
def stateRated : AppState :=
  { photos := [photoA], users := [{ id := 5, username := "alice" }],
    ratings := [{ id := 20, photo_id := 1, user_id := 7, rating := 4, created_at := 5 },
                { id := 21, photo_id := 1, user_id := 8, rating := 2, created_at := 6 }],
    likes := [], comments := [], cache := [], media := [11], nextId := 30, now := 50 }

/-- Witness for C10 at `stateRated`. -/
theorem rating_stats_distribution_witness :
    ∃ st, get_photo_rating_stats 1 stateRated = Except.ok st ∧
      st.total_ratings = (ratingsFor stateRated 1).length ∧
      (∀ v, 1 ≤ v → v ≤ 5 →
        distGet st.rating_distribution v =
          some ((ratingsFor stateRated 1).countP (fun r => r.rating == v))) ∧
      (st.rating_distribution.map Prod.snd).sum = st.total_ratings ∧
      (ratingsFor stateRated 1 = [] →
        st.average_rating = 0 ∧ st.total_ratings = 0 ∧
        st.rating_distribution = zeroDist) :=
  rating_stats_distribution stateRated 1 (by decide) (by decide)
